import Mathlib

/-!
Shallow embedding of the value conversion layer in
`internal/value/convert.go`: Go reflective types and values, abstract
protoreflect values, the `Converter` record, the scalar conversion helper
`makeScalarConverter`, and the factory `NewLegacyConverter`.  Go panics are
modelled as `Except` errors carrying the same information the panic message
carries.  Capabilities of the external `protoreflect` package and of the
legacy wrapper are modelled from the spec and marked as such in their doc
comments.
-/

/-- The reflective kind of a Go type (`reflect.Kind`), restricted to the
kinds the conversion layer inspects; every other kind is `other`. -/
inductive GoKind where
  | bool | int32 | int64 | uint32 | uint64
  | float32 | float64 | string | slice | ptr | other
deriving DecidableEq, Repr

/-- A Go type as seen through `reflect.Type` by the conversion layer: its
kind, its name and package path (empty for unnamed types), whether a slice
type has element type `byte`, and which of the three capability interfaces
(`pref.ProtoEnum`, `papi.Message`, `pref.ProtoMessage`) it implements. -/
structure GoType where
  kind : GoKind
  name : String
  pkgPath : String
  elemIsByte : Bool
  implsEnumV2 : Bool
  implsMessageV1 : Bool
  implsMessageV2 : Bool
deriving DecidableEq, Repr

def boolType : GoType := ⟨.bool, "bool", "", false, false, false, false⟩

def int32Type : GoType := ⟨.int32, "int32", "", false, false, false, false⟩

def int64Type : GoType := ⟨.int64, "int64", "", false, false, false, false⟩

def uint32Type : GoType := ⟨.uint32, "uint32", "", false, false, false, false⟩

def uint64Type : GoType := ⟨.uint64, "uint64", "", false, false, false, false⟩

def float32Type : GoType := ⟨.float32, "float32", "", false, false, false, false⟩

def float64Type : GoType := ⟨.float64, "float64", "", false, false, false, false⟩

def stringType : GoType := ⟨.string, "string", "", false, false, false, false⟩

def bytesType : GoType := ⟨.slice, "", "", true, false, false, false⟩

/-- The Go type `pref.EnumNumber` (a named `int32` declared in the
protoreflect package). -/
def enumNumberType : GoType := ⟨.int32, "EnumNumber", "protoreflect", false, false, false, false⟩

/-- The payload of a Go value.  Byte slices distinguish the nil slice
(`none`) from an allocated slice (`some bs`), since the conversion layer
deliberately normalizes between the two.  Strings and byte slices carry
their bytes as a list of naturals.  Floats carry an opaque bit pattern:
the conversion layer never computes with them, it only re-types them.
Pointers carry an opaque address, so pointer identity is payload equality. -/
inductive GoPayload where
  | boolV : Bool → GoPayload
  | intV : Int → GoPayload
  | uintV : Nat → GoPayload
  | floatV : Nat → GoPayload
  | stringV : List Nat → GoPayload
  | bytesV : Option (List Nat) → GoPayload
  | ptrV : Nat → GoPayload
deriving DecidableEq, Repr

/-- A Go value as seen through `reflect.Value`: its exact dynamic type and
its payload. -/
structure GoValue where
  type : GoType
  payload : GoPayload
deriving DecidableEq, Repr

/-- `reflect.Value.Convert`: re-type a value.  Converting a string to a
byte slice allocates (the result is never the nil slice); converting a byte
slice to a string flattens nil and allocated-empty to the empty string; all
conversions the layer performs between same-kind types keep the payload. -/
def GoValue.Convert (v : GoValue) (t : GoType) : GoValue :=
  match v.payload, v.type.kind, t.kind with
  | .stringV s, .string, .slice => ⟨t, .bytesV (some s)⟩
  | .bytesV none, .slice, .string => ⟨t, .stringV []⟩
  | .bytesV (some s), .slice, .string => ⟨t, .stringV s⟩
  | p, _, _ => ⟨t, p⟩

/-- `reflect.Value.Len` for the string and slice values the layer calls it
on. -/
def GoValue.Len : GoValue → Nat
  | ⟨_, .stringV s⟩ => s.length
  | ⟨_, .bytesV none⟩ => 0
  | ⟨_, .bytesV (some s)⟩ => s.length
  | _ => 0

/-- `reflect.Value.Int` for integer-kinded values. -/
def GoValue.Int : GoValue → Int
  | ⟨_, .intV n⟩ => n
  | _ => 0

/-- `reflect.Zero`: the zero value of a Go type (nil for slices and
pointers). -/
def goZero (t : GoType) : GoValue :=
  ⟨t, match t.kind with
      | .bool => .boolV false
      | .int32 => .intV 0
      | .int64 => .intV 0
      | .uint32 => .uintV 0
      | .uint64 => .uintV 0
      | .float32 => .floatV 0
      | .float64 => .floatV 0
      | .string => .stringV []
      | .slice => .bytesV none
      | .ptr => .ptrV 0
      | .other => .ptrV 0⟩

/-- Modelled from the spec: the number a self-describing (current-style)
enum value reports through its own reflection accessor
(`e.ProtoReflect().Number()`).  Generated enums are integer-backed, so the
reported number is the integer payload. -/
def protoEnumNumber (v : GoValue) : Int :=
  match v.payload with
  | .intV n => n
  | _ => 0

/-- Modelled from the spec: the opaque enum type descriptor
(`pref.EnumType`).  It remembers the native Go type whose values its
constructor produces, and whether it was produced by the legacy wrapper. -/
structure PrefEnumType where
  goType : GoType
  fromWrapper : Bool
deriving DecidableEq, Repr

/-- Modelled from the spec: the enum type descriptor's constructor
(`et.New(n)`) reconstructs a value of the enum's native type carrying the
given number. -/
def PrefEnumType.New (et : PrefEnumType) (n : Int) : GoValue :=
  ⟨et.goType, .intV n⟩

/-- Modelled from the spec: the type descriptor a current-style enum type
reports for itself (`reflect.Zero(t).Interface().(pref.ProtoEnum).ProtoReflect().Type()`). -/
def protoReflectEnumType (t : GoType) : PrefEnumType := ⟨t, false⟩

/-- Modelled from the spec: the opaque message type descriptor
(`pref.MessageType`). -/
structure PrefMessageType where
  goType : GoType
  fromWrapper : Bool
deriving DecidableEq, Repr

/-- Modelled from the spec: the type descriptor a current-style message
type reports for itself. -/
def protoReflectMessageType (t : GoType) : PrefMessageType := ⟨t, false⟩

/-- The dynamic Go type of a legacy wrapper object produced by the legacy
wrapper's `MessageOf`. -/
def wrapperGoType : GoType := ⟨.ptr, "legacyMessageWrapper", "impl", false, false, false, false⟩

/-- Modelled from the spec: an abstract message (`pref.Message`) is either
a current-style message, boxing the native pointer value directly, or a
legacy value wrapped by the legacy wrapper. -/
inductive PrefMessage where
  | current : GoValue → PrefMessage
  | wrapped : GoValue → PrefMessage
deriving DecidableEq, Repr

/-- Modelled from the spec: `pref.Message.Interface()`.  A current-style
message unboxes to the native pointer it boxed; a wrapped legacy value
presents the wrapper object itself. -/
def PrefMessage.Interface : PrefMessage → GoValue
  | .current g => g
  | .wrapped _ => ⟨wrapperGoType, .ptrV 0⟩

/-- A fault (Go panic).  `typeMismatch` is the panic
`invalid type: got %v, want %v` raised by the conversion functions in this
file; `prefTypeMismatch` models the panic raised inside the external
protoreflect accessors (`Value.Enum`, `Value.Message`, the `Unwrapper`
type assertion) when the abstract value holds a different kind; it also
carries the observed and the expected type. -/
inductive Fault where
  | typeMismatch (got want : GoType)
  | prefTypeMismatch (got want : String)
deriving DecidableEq, Repr

/-- An abstract protocol value (`pref.Value`). -/
inductive PBValue where
  | boolV : Bool → PBValue
  | int32V : Int → PBValue
  | int64V : Int → PBValue
  | uint32V : Nat → PBValue
  | uint64V : Nat → PBValue
  | float32V : Nat → PBValue
  | float64V : Nat → PBValue
  | stringV : List Nat → PBValue
  | bytesV : Option (List Nat) → PBValue
  | enumV : Int → PBValue
  | messageV : PrefMessage → PBValue
deriving DecidableEq, Repr

/-- The name of the kind of value an abstract value holds, as it appears in
a protoreflect mismatch panic. -/
def PBValue.kindName : PBValue → String
  | .boolV _ => "bool"
  | .int32V _ => "int32"
  | .int64V _ => "int64"
  | .uint32V _ => "uint32"
  | .uint64V _ => "uint64"
  | .float32V _ => "float32"
  | .float64V _ => "float64"
  | .stringV _ => "string"
  | .bytesV _ => "bytes"
  | .enumV _ => "enum"
  | .messageV _ => "message"

/-- Modelled from the spec: `pref.Value.Enum()` — returns the enum number
an enum-kinded abstract value holds, and faults (carrying the observed and
the expected kind) on every other kind of abstract value. -/
def prefEnum : PBValue → Except Fault Int
  | .enumV n => .ok n
  | v => .error (.prefTypeMismatch v.kindName "enum")

/-- Modelled from the spec: `pref.Value.Message()` — returns the abstract
message a message-kinded abstract value holds, and faults (carrying the
observed and the expected kind) otherwise. -/
def prefMessage : PBValue → Except Fault PrefMessage
  | .messageV m => .ok m
  | v => .error (.prefTypeMismatch v.kindName "message")

/-- Modelled from the spec: the `Unwrapper` type assertion followed by
`ProtoUnwrap()` on an abstract message: a wrapped legacy value returns the
value the wrapper wrapped; a current-style message does not implement the
unwrap capability, so the assertion faults. -/
def PrefMessage.ProtoUnwrap : PrefMessage → Except Fault GoValue
  | .wrapped u => .ok u
  | .current _ => .error (.prefTypeMismatch "message" "Unwrapper")

/-- Modelled from the spec: `pref.Value.Interface()` followed by
`reflect.ValueOf` — the dynamic Go value underlying an abstract value.
Scalar kinds surface as the nine primitive Go types, enum numbers as
`pref.EnumNumber`, messages as their message object. -/
def prefInterface : PBValue → GoValue
  | .boolV b => ⟨boolType, .boolV b⟩
  | .int32V n => ⟨int32Type, .intV n⟩
  | .int64V n => ⟨int64Type, .intV n⟩
  | .uint32V n => ⟨uint32Type, .uintV n⟩
  | .uint64V n => ⟨uint64Type, .uintV n⟩
  | .float32V b => ⟨float32Type, .floatV b⟩
  | .float64V b => ⟨float64Type, .floatV b⟩
  | .stringV s => ⟨stringType, .stringV s⟩
  | .bytesV o => ⟨bytesType, .bytesV o⟩
  | .enumV n => ⟨enumNumberType, .intV n⟩
  | .messageV m => m.Interface

/-- Modelled from the spec: `pref.ValueOf` restricted to the nine primitive
Go types a scalar converter feeds it (it dispatches on the exact dynamic
type, so named variants of the primitives are not accepted). -/
def prefValueOfScalar (v : GoValue) : Except Fault PBValue :=
  if v.type = boolType then
    match v.payload with
    | .boolV b => .ok (.boolV b)
    | _ => .error (.prefTypeMismatch v.type.name "bool")
  else if v.type = int32Type then
    match v.payload with
    | .intV n => .ok (.int32V n)
    | _ => .error (.prefTypeMismatch v.type.name "int32")
  else if v.type = int64Type then
    match v.payload with
    | .intV n => .ok (.int64V n)
    | _ => .error (.prefTypeMismatch v.type.name "int64")
  else if v.type = uint32Type then
    match v.payload with
    | .uintV n => .ok (.uint32V n)
    | _ => .error (.prefTypeMismatch v.type.name "uint32")
  else if v.type = uint64Type then
    match v.payload with
    | .uintV n => .ok (.uint64V n)
    | _ => .error (.prefTypeMismatch v.type.name "uint64")
  else if v.type = float32Type then
    match v.payload with
    | .floatV b => .ok (.float32V b)
    | _ => .error (.prefTypeMismatch v.type.name "float32")
  else if v.type = float64Type then
    match v.payload with
    | .floatV b => .ok (.float64V b)
    | _ => .error (.prefTypeMismatch v.type.name "float64")
  else if v.type = stringType then
    match v.payload with
    | .stringV s => .ok (.stringV s)
    | _ => .error (.prefTypeMismatch v.type.name "string")
  else if v.type = bytesType then
    match v.payload with
    | .bytesV o => .ok (.bytesV o)
    | _ => .error (.prefTypeMismatch v.type.name "bytes")
  else .error (.prefTypeMismatch v.type.name "scalar")

/-- Modelled from the spec: the legacy wrapper capability; opaque beyond an
identity.  Its operations wrap legacy values into current-style ones and
produce type metadata for them. -/
structure LegacyWrapper where
  wid : Nat
deriving DecidableEq, Repr

/-- Modelled from the spec: `w.EnumTypeOf` — type metadata for a legacy
enum type. -/
def LegacyWrapper.EnumTypeOf (_w : LegacyWrapper) (t : GoType) : PrefEnumType :=
  ⟨t, true⟩

/-- Modelled from the spec: `w.MessageTypeOf` — type metadata for a legacy
message type. -/
def LegacyWrapper.MessageTypeOf (_w : LegacyWrapper) (t : GoType) : PrefMessageType :=
  ⟨t, true⟩

/-- Modelled from the spec: `w.MessageOf` — wrap a legacy value as a
current-style abstract message; its unwrap capability returns the value it
wrapped. -/
def LegacyWrapper.MessageOf (_w : LegacyWrapper) (v : GoValue) : PrefMessage :=
  .wrapped v

/-- The protobuf field kind (`pref.Kind`), restricted to the kinds the
classification switch names. -/
inductive Kind where
  | bool | int32 | sint32 | sfixed32 | int64 | sint64 | sfixed64
  | uint32 | fixed32 | uint64 | fixed64
  | float | double | string | bytes | enum | message | group
deriving DecidableEq, Repr

/-- The fault raised by the factory when no classification row matches:
`invalid Go type %v for protobuf kind %v`, carrying the native type and the
protocol kind. -/
inductive BuildFault where
  | unsupported (t : GoType) (k : Kind)
deriving DecidableEq, Repr

/-- The produced `Converter`: the two conversion functions (total, with
panics as errors), the optional enum and message type descriptors, and the
legacy flag. -/
structure Converter where
  PBValueOf : GoValue → Except Fault PBValue
  GoValueOf : PBValue → Except Fault GoValue
  EnumType : Option PrefEnumType
  MessageType : Option PrefMessageType
  IsLegacy : Bool

/-- `makeScalarConverter` from convert.go: the passthrough scalar converter
between a native Go type and one of the nine primitive protocol-facing
types, with the two empty-value normalization special cases. -/
def makeScalarConverter (goType pbType : GoType) : Converter :=
  ⟨fun v =>
      if v.type ≠ goType then .error (.typeMismatch v.type goType)
      else if goType.kind = .string ∧ pbType.kind = .slice ∧ v.Len = 0 then
        .ok (.bytesV none)
      else prefValueOfScalar (v.Convert pbType),
    fun v =>
      let rv := prefInterface v
      if rv.type ≠ pbType then .error (.typeMismatch rv.type pbType)
      else if pbType.kind = .string ∧ goType.kind = .slice ∧ rv.Len = 0 then
        .ok (goZero goType)
      else .ok (rv.Convert goType),
    none, none, false⟩

/-- The converter the factory builds for a current-style (v2) enum type. -/
def currentEnumConverter (t : GoType) : Converter :=
  let et := protoReflectEnumType t
  ⟨fun v =>
      if v.type ≠ t then .error (.typeMismatch v.type t)
      else .ok (.enumV (protoEnumNumber v)),
    fun v =>
      match prefEnum v with
      | .error e => .error e
      | .ok n =>
          let rv := et.New n
          if rv.type ≠ t then .error (.typeMismatch rv.type t)
          else .ok rv,
    some et, none, false⟩

/-- The converter the factory builds for a legacy (v1) enum type: a named
32-bit integer treated as the enum number directly. -/
def legacyEnumConverter (t : GoType) (w : LegacyWrapper) : Converter :=
  let et := w.EnumTypeOf t
  ⟨fun v =>
      if v.type ≠ t then .error (.typeMismatch v.type t)
      else .ok (.enumV v.Int),
    fun v =>
      match prefEnum v with
      | .error e => .error e
      | .ok n => .ok (GoValue.Convert ⟨enumNumberType, .intV n⟩ t),
    some et, none, true⟩

/-- The converter the factory builds for a current-style (v2) message
pointer type: box and unbox the pointer directly. -/
def currentMessageConverter (t : GoType) : Converter :=
  let mt := protoReflectMessageType t
  ⟨fun v =>
      if v.type ≠ t then .error (.typeMismatch v.type t)
      else .ok (.messageV (.current v)),
    fun v =>
      match prefMessage v with
      | .error e => .error e
      | .ok m =>
          let rv := m.Interface
          if rv.type ≠ t then .error (.typeMismatch rv.type t)
          else .ok rv,
    none, some mt, false⟩

/-- The converter the factory builds for a legacy (v1) message pointer
type: wrap through the legacy wrapper on the way out, unwrap on the way
in. -/
def legacyMessageConverter (t : GoType) (w : LegacyWrapper) : Converter :=
  let mt := w.MessageTypeOf t
  ⟨fun v =>
      if v.type ≠ t then .error (.typeMismatch v.type t)
      else .ok (.messageV (w.MessageOf v)),
    fun v =>
      match prefMessage v with
      | .error e => .error e
      | .ok m =>
          match m.ProtoUnwrap with
          | .error e => .error e
          | .ok rv =>
              if rv.type ≠ t then .error (.typeMismatch rv.type t)
              else .ok rv,
    none, some mt, true⟩

/-- `NewLegacyConverter` from convert.go: the classification switch over
the protocol kind, first-match-wins, falling through to the `unsupported`
fault when no row matches. -/
def NewLegacyConverter (t : GoType) (k : Kind) (w : Option LegacyWrapper) :
    Except BuildFault Converter :=
  match k with
  | .bool =>
      if t.kind = .bool then .ok (makeScalarConverter t boolType)
      else .error (.unsupported t k)
  | .int32 | .sint32 | .sfixed32 =>
      if t.kind = .int32 then .ok (makeScalarConverter t int32Type)
      else .error (.unsupported t k)
  | .int64 | .sint64 | .sfixed64 =>
      if t.kind = .int64 then .ok (makeScalarConverter t int64Type)
      else .error (.unsupported t k)
  | .uint32 | .fixed32 =>
      if t.kind = .uint32 then .ok (makeScalarConverter t uint32Type)
      else .error (.unsupported t k)
  | .uint64 | .fixed64 =>
      if t.kind = .uint64 then .ok (makeScalarConverter t uint64Type)
      else .error (.unsupported t k)
  | .float =>
      if t.kind = .float32 then .ok (makeScalarConverter t float32Type)
      else .error (.unsupported t k)
  | .double =>
      if t.kind = .float64 then .ok (makeScalarConverter t float64Type)
      else .error (.unsupported t k)
  | .string =>
      if t.kind = .string ∨ (t.kind = .slice ∧ t.elemIsByte) then
        .ok (makeScalarConverter t stringType)
      else .error (.unsupported t k)
  | .bytes =>
      if t.kind = .string ∨ (t.kind = .slice ∧ t.elemIsByte) then
        .ok (makeScalarConverter t bytesType)
      else .error (.unsupported t k)
  | .enum =>
      if t.kind ≠ .ptr ∧ t.implsEnumV2 then .ok (currentEnumConverter t)
      else
        match w with
        | some lw =>
            if t.pkgPath ≠ "" ∧ t.kind = .int32 then .ok (legacyEnumConverter t lw)
            else .error (.unsupported t k)
        | none => .error (.unsupported t k)
  | .message | .group =>
      if t.kind = .ptr ∧ t.implsMessageV2 then .ok (currentMessageConverter t)
      else
        match w with
        | some lw =>
            if t.kind = .ptr ∧ t.implsMessageV1 then .ok (legacyMessageConverter t lw)
            else .error (.unsupported t k)
        | none => .error (.unsupported t k)

/-- `NewConverter` from convert.go. -/
def NewConverter (t : GoType) (k : Kind) : Except BuildFault Converter :=
  NewLegacyConverter t k none

/-- Whether a protocol kind is one of the scalar kinds (everything except
enum, message and group). -/
def Kind.isScalar : Kind → Bool
  | .enum => false
  | .message => false
  | .group => false
  | _ => true

/-- The protocol-facing primitive Go type a scalar kind converts through
(the `pbType` argument of `makeScalarConverter`); junk for non-scalar
kinds, which never use it. -/
def scalarPB : Kind → GoType
  | .bool => boolType
  | .int32 | .sint32 | .sfixed32 => int32Type
  | .int64 | .sint64 | .sfixed64 => int64Type
  | .uint32 | .fixed32 => uint32Type
  | .uint64 | .fixed64 => uint64Type
  | .float => float32Type
  | .double => float64Type
  | .string => stringType
  | .bytes => bytesType
  | .enum | .message | .group => boolType

/-- Whether a native type has the shape a scalar kind's classification row
accepts. -/
def scalarNativeOK (t : GoType) (k : Kind) : Prop :=
  match k with
  | .bool => t.kind = .bool
  | .int32 | .sint32 | .sfixed32 => t.kind = .int32
  | .int64 | .sint64 | .sfixed64 => t.kind = .int64
  | .uint32 | .fixed32 => t.kind = .uint32
  | .uint64 | .fixed64 => t.kind = .uint64
  | .float => t.kind = .float32
  | .double => t.kind = .float64
  | .string | .bytes => t.kind = .string ∨ (t.kind = .slice ∧ t.elemIsByte)
  | .enum | .message | .group => False

instance (t : GoType) (k : Kind) : Decidable (scalarNativeOK t k) := by
  unfold scalarNativeOK; cases k <;> infer_instance

/-- The classification table exactly as the spec states it: which (native
type, protocol kind, optional legacy wrapper) triples have an accepting
row.  Written from the spec's words, for comparison with the factory. -/
def specAccepts (t : GoType) (k : Kind) (w : Option LegacyWrapper) : Prop :=
  match k with
  | .bool => t.kind = .bool
  | .int32 | .sint32 | .sfixed32 => t.kind = .int32
  | .int64 | .sint64 | .sfixed64 => t.kind = .int64
  | .uint32 | .fixed32 => t.kind = .uint32
  | .uint64 | .fixed64 => t.kind = .uint64
  | .float => t.kind = .float32
  | .double => t.kind = .float64
  | .string | .bytes => t.kind = .string ∨ (t.kind = .slice ∧ t.elemIsByte)
  | .enum =>
      (t.kind ≠ .ptr ∧ t.implsEnumV2) ∨
      (w.isSome ∧ t.pkgPath ≠ "" ∧ t.kind = .int32)
  | .message | .group =>
      (t.kind = .ptr ∧ t.implsMessageV2) ∨
      (w.isSome ∧ t.kind = .ptr ∧ t.implsMessageV1)

instance (t : GoType) (k : Kind) (w : Option LegacyWrapper) :
    Decidable (specAccepts t k w) := by
  unfold specAccepts; cases k <;> infer_instance

/-- Whether a Go value's payload is of the shape its type's kind dictates
(every value reachable in Go is). -/
def wellTyped (v : GoValue) : Prop :=
  match v.type.kind, v.payload with
  | .bool, .boolV _ => True
  | .int32, .intV _ => True
  | .int64, .intV _ => True
  | .uint32, .uintV _ => True
  | .uint64, .uintV _ => True
  | .float32, .floatV _ => True
  | .float64, .floatV _ => True
  | .string, .stringV _ => True
  | .slice, .bytesV _ => True
  | .ptr, .ptrV _ => True
  | _, _ => False

instance (v : GoValue) : Decidable (wellTyped v) := by
  unfold wellTyped; cases h : v.type.kind <;> cases hp : v.payload <;> exact inferInstanceAs (Decidable _)

/-- Value equality of payloads: identical, except that the nil byte slice
and the allocated empty byte slice are value-equal. -/
def payloadValueEq : GoPayload → GoPayload → Prop
  | .bytesV a, .bytesV b => a.getD [] = b.getD []
  | p, q => p = q

/-- Whether an abstract value's runtime kind fails to match what a
converter built for protocol kind `k` expects on its `GoValueOf` side:
for enum kinds, any non-enum abstract value; for message kinds, any
non-message abstract value; for scalar kinds, any abstract value whose
underlying dynamic Go type differs from the protocol-facing primitive. -/
def pbRuntimeMismatch (k : Kind) (pv : PBValue) : Prop :=
  match k with
  | .enum => ∀ n, pv ≠ .enumV n
  | .message | .group => ∀ m, pv ≠ .messageV m
  | _ => (prefInterface pv).type ≠ scalarPB k

/-- Whether a conversion outcome is a fault of one of the two mismatch
shapes, each of which carries the observed and the expected type as its two
fields. -/
def isMismatchFault : Except Fault GoValue → Prop
  | .error (.typeMismatch _ _) => True
  | .error (.prefTypeMismatch _ _) => True
  | _ => False

/-- A named (defined) 32-bit signed integer Go type, as generated code
declares for legacy enums. -/
def namedInt32 : GoType := ⟨.int32, "MyInt32", "example.com/pkg", false, false, false, false⟩

/-- A current-style (v2) enum Go type: a named non-pointer type
implementing the self-description capability. -/
def enumV2GoType : GoType := ⟨.int32, "MyEnum", "example.com/pkg", false, true, false, false⟩

/-- A current-style (v2) message pointer Go type. -/
def msgV2GoType : GoType := ⟨.ptr, "", "example.com/pkg", false, false, false, true⟩

/-- A legacy (v1) message pointer Go type: implements the legacy message
capability but not the current one. -/
def msgV1GoType : GoType := ⟨.ptr, "", "example.com/pkg", false, false, true, false⟩

/-- A concrete legacy wrapper for witnesses. -/
def theWrapper : LegacyWrapper := ⟨0⟩

theorem boolType_kind : boolType.kind = .bool := rfl

theorem int32Type_kind : int32Type.kind = .int32 := rfl

theorem int64Type_kind : int64Type.kind = .int64 := rfl

theorem uint32Type_kind : uint32Type.kind = .uint32 := rfl

theorem uint64Type_kind : uint64Type.kind = .uint64 := rfl

theorem float32Type_kind : float32Type.kind = .float32 := rfl

theorem float64Type_kind : float64Type.kind = .float64 := rfl

theorem stringType_kind : stringType.kind = .string := rfl

theorem bytesType_kind : bytesType.kind = .slice := rfl

theorem enumNumberType_kind : enumNumberType.kind = .int32 := rfl

theorem prefValueOfScalar_bool (b : Bool) :
    prefValueOfScalar ⟨boolType, .boolV b⟩ = .ok (.boolV b) := rfl

theorem prefValueOfScalar_int32 (n : Int) :
    prefValueOfScalar ⟨int32Type, .intV n⟩ = .ok (.int32V n) := rfl

theorem prefValueOfScalar_int64 (n : Int) :
    prefValueOfScalar ⟨int64Type, .intV n⟩ = .ok (.int64V n) := rfl

theorem prefValueOfScalar_uint32 (n : Nat) :
    prefValueOfScalar ⟨uint32Type, .uintV n⟩ = .ok (.uint32V n) := rfl

theorem prefValueOfScalar_uint64 (n : Nat) :
    prefValueOfScalar ⟨uint64Type, .uintV n⟩ = .ok (.uint64V n) := rfl

theorem prefValueOfScalar_float32 (b : Nat) :
    prefValueOfScalar ⟨float32Type, .floatV b⟩ = .ok (.float32V b) := rfl

theorem prefValueOfScalar_float64 (b : Nat) :
    prefValueOfScalar ⟨float64Type, .floatV b⟩ = .ok (.float64V b) := rfl

theorem prefValueOfScalar_string (s : List Nat) :
    prefValueOfScalar ⟨stringType, .stringV s⟩ = .ok (.stringV s) := rfl

theorem prefValueOfScalar_bytes (o : Option (List Nat)) :
    prefValueOfScalar ⟨bytesType, .bytesV o⟩ = .ok (.bytesV o) := rfl

/-- The behavior of the scalar converter on a well-typed native value:
conversion out succeeds, yields the canonical primitive protocol
representation, conversion back succeeds and returns a value of the
original native type that is value-equal to the input — identical except
that an allocated empty byte slice comes back as the zero-value nil
slice. -/
theorem makeScalar_roundtrip (t : GoType) (k : Kind)
    (hks : k.isScalar = true) (hok : scalarNativeOK t k)
    (v : GoValue) (hv : v.type = t) (hw : wellTyped v) :
    ∃ pv v2,
      (makeScalarConverter t (scalarPB k)).PBValueOf v = .ok pv ∧
      (prefInterface pv).type = scalarPB k ∧
      (makeScalarConverter t (scalarPB k)).GoValueOf pv = .ok v2 ∧
      v2.type = t ∧ payloadValueEq v2.payload v.payload ∧
      (v2 = v ∨ (v.Len = 0 ∧ v2 = goZero t)) := by
  subst hv
  obtain ⟨ty, p⟩ := v
  cases k <;> simp only [Kind.isScalar] at hks <;> simp only [scalarNativeOK] at hok
  case bool =>
    cases p <;> simp only [wellTyped, hok] at hw
    case boolV b =>
      refine ⟨.boolV b, ⟨ty, .boolV b⟩, ?_, by simp [prefInterface, scalarPB], ?_, rfl, rfl,
        Or.inl rfl⟩
      · simp [makeScalarConverter, scalarPB, hok, GoValue.Convert, prefValueOfScalar_bool]
      · simp [makeScalarConverter, scalarPB, prefInterface, GoValue.Convert, boolType_kind]
  case int32 =>
    cases p <;> simp only [wellTyped, hok] at hw
    case intV n =>
      refine ⟨.int32V n, ⟨ty, .intV n⟩, ?_, by simp [prefInterface, scalarPB], ?_, rfl, rfl,
        Or.inl rfl⟩
      · simp [makeScalarConverter, scalarPB, hok, GoValue.Convert, prefValueOfScalar_int32]
      · simp [makeScalarConverter, scalarPB, prefInterface, GoValue.Convert, int32Type_kind]
  case sint32 =>
    cases p <;> simp only [wellTyped, hok] at hw
    case intV n =>
      refine ⟨.int32V n, ⟨ty, .intV n⟩, ?_, by simp [prefInterface, scalarPB], ?_, rfl, rfl,
        Or.inl rfl⟩
      · simp [makeScalarConverter, scalarPB, hok, GoValue.Convert, prefValueOfScalar_int32]
      · simp [makeScalarConverter, scalarPB, prefInterface, GoValue.Convert, int32Type_kind]
  case sfixed32 =>
    cases p <;> simp only [wellTyped, hok] at hw
    case intV n =>
      refine ⟨.int32V n, ⟨ty, .intV n⟩, ?_, by simp [prefInterface, scalarPB], ?_, rfl, rfl,
        Or.inl rfl⟩
      · simp [makeScalarConverter, scalarPB, hok, GoValue.Convert, prefValueOfScalar_int32]
      · simp [makeScalarConverter, scalarPB, prefInterface, GoValue.Convert, int32Type_kind]
  case int64 =>
    cases p <;> simp only [wellTyped, hok] at hw
    case intV n =>
      refine ⟨.int64V n, ⟨ty, .intV n⟩, ?_, by simp [prefInterface, scalarPB], ?_, rfl, rfl,
        Or.inl rfl⟩
      · simp [makeScalarConverter, scalarPB, hok, GoValue.Convert, prefValueOfScalar_int64]
      · simp [makeScalarConverter, scalarPB, prefInterface, GoValue.Convert, int64Type_kind]
  case sint64 =>
    cases p <;> simp only [wellTyped, hok] at hw
    case intV n =>
      refine ⟨.int64V n, ⟨ty, .intV n⟩, ?_, by simp [prefInterface, scalarPB], ?_, rfl, rfl,
        Or.inl rfl⟩
      · simp [makeScalarConverter, scalarPB, hok, GoValue.Convert, prefValueOfScalar_int64]
      · simp [makeScalarConverter, scalarPB, prefInterface, GoValue.Convert, int64Type_kind]
  case sfixed64 =>
    cases p <;> simp only [wellTyped, hok] at hw
    case intV n =>
      refine ⟨.int64V n, ⟨ty, .intV n⟩, ?_, by simp [prefInterface, scalarPB], ?_, rfl, rfl,
        Or.inl rfl⟩
      · simp [makeScalarConverter, scalarPB, hok, GoValue.Convert, prefValueOfScalar_int64]
      · simp [makeScalarConverter, scalarPB, prefInterface, GoValue.Convert, int64Type_kind]
  case uint32 =>
    cases p <;> simp only [wellTyped, hok] at hw
    case uintV n =>
      refine ⟨.uint32V n, ⟨ty, .uintV n⟩, ?_, by simp [prefInterface, scalarPB], ?_, rfl, rfl,
        Or.inl rfl⟩
      · simp [makeScalarConverter, scalarPB, hok, GoValue.Convert, prefValueOfScalar_uint32]
      · simp [makeScalarConverter, scalarPB, prefInterface, GoValue.Convert, uint32Type_kind]
  case fixed32 =>
    cases p <;> simp only [wellTyped, hok] at hw
    case uintV n =>
      refine ⟨.uint32V n, ⟨ty, .uintV n⟩, ?_, by simp [prefInterface, scalarPB], ?_, rfl, rfl,
        Or.inl rfl⟩
      · simp [makeScalarConverter, scalarPB, hok, GoValue.Convert, prefValueOfScalar_uint32]
      · simp [makeScalarConverter, scalarPB, prefInterface, GoValue.Convert, uint32Type_kind]
  case uint64 =>
    cases p <;> simp only [wellTyped, hok] at hw
    case uintV n =>
      refine ⟨.uint64V n, ⟨ty, .uintV n⟩, ?_, by simp [prefInterface, scalarPB], ?_, rfl, rfl,
        Or.inl rfl⟩
      · simp [makeScalarConverter, scalarPB, hok, GoValue.Convert, prefValueOfScalar_uint64]
      · simp [makeScalarConverter, scalarPB, prefInterface, GoValue.Convert, uint64Type_kind]
  case fixed64 =>
    cases p <;> simp only [wellTyped, hok] at hw
    case uintV n =>
      refine ⟨.uint64V n, ⟨ty, .uintV n⟩, ?_, by simp [prefInterface, scalarPB], ?_, rfl, rfl,
        Or.inl rfl⟩
      · simp [makeScalarConverter, scalarPB, hok, GoValue.Convert, prefValueOfScalar_uint64]
      · simp [makeScalarConverter, scalarPB, prefInterface, GoValue.Convert, uint64Type_kind]
  case float =>
    cases p <;> simp only [wellTyped, hok] at hw
    case floatV b =>
      refine ⟨.float32V b, ⟨ty, .floatV b⟩, ?_, by simp [prefInterface, scalarPB], ?_, rfl, rfl,
        Or.inl rfl⟩
      · simp [makeScalarConverter, scalarPB, hok, GoValue.Convert, prefValueOfScalar_float32]
      · simp [makeScalarConverter, scalarPB, prefInterface, GoValue.Convert, float32Type_kind]
  case double =>
    cases p <;> simp only [wellTyped, hok] at hw
    case floatV b =>
      refine ⟨.float64V b, ⟨ty, .floatV b⟩, ?_, by simp [prefInterface, scalarPB], ?_, rfl, rfl,
        Or.inl rfl⟩
      · simp [makeScalarConverter, scalarPB, hok, GoValue.Convert, prefValueOfScalar_float64]
      · simp [makeScalarConverter, scalarPB, prefInterface, GoValue.Convert, float64Type_kind]
  case string =>
    rcases hok with hok | ⟨hok, helem⟩
    · cases p <;> simp only [wellTyped, hok] at hw
      case stringV s =>
        refine ⟨.stringV s, ⟨ty, .stringV s⟩, ?_, by simp [prefInterface, scalarPB], ?_, rfl, rfl,
          Or.inl rfl⟩
        · simp [makeScalarConverter, scalarPB, hok, GoValue.Convert, stringType_kind,
            prefValueOfScalar_string]
        · simp [makeScalarConverter, scalarPB, prefInterface, GoValue.Convert, stringType_kind, hok]
    · cases p <;> simp only [wellTyped, hok] at hw
      case bytesV o =>
        rcases o with _ | ⟨_ | ⟨c, rest⟩⟩
        · refine ⟨.stringV [], ⟨ty, .bytesV none⟩, ?_, by simp [prefInterface, scalarPB], ?_, rfl,
            rfl, Or.inl rfl⟩
          · simp [makeScalarConverter, scalarPB, hok, GoValue.Convert, stringType_kind,
              prefValueOfScalar_string]
          · simp [makeScalarConverter, scalarPB, prefInterface, GoValue.Convert, stringType_kind,
              hok, GoValue.Len, goZero]
        · refine ⟨.stringV [], ⟨ty, .bytesV none⟩, ?_, by simp [prefInterface, scalarPB], ?_, rfl,
            by simp [payloadValueEq], Or.inr ⟨by simp [GoValue.Len], by simp [goZero, hok]⟩⟩
          · simp [makeScalarConverter, scalarPB, hok, GoValue.Convert, stringType_kind,
              prefValueOfScalar_string]
          · simp [makeScalarConverter, scalarPB, prefInterface, GoValue.Convert, stringType_kind,
              hok, GoValue.Len, goZero]
        · refine ⟨.stringV (c :: rest), ⟨ty, .bytesV (some (c :: rest))⟩, ?_,
            by simp [prefInterface, scalarPB], ?_, rfl, rfl, Or.inl rfl⟩
          · simp [makeScalarConverter, scalarPB, hok, GoValue.Convert, stringType_kind,
              prefValueOfScalar_string]
          · simp [makeScalarConverter, scalarPB, prefInterface, GoValue.Convert, stringType_kind,
              hok, GoValue.Len]
  case bytes =>
    rcases hok with hok | ⟨hok, helem⟩
    · cases p <;> simp only [wellTyped, hok] at hw
      case stringV s =>
        rcases s with _ | ⟨c, rest⟩
        · refine ⟨.bytesV none, ⟨ty, .stringV []⟩, ?_, by simp [prefInterface, scalarPB], ?_, rfl,
            rfl, Or.inl rfl⟩
          · simp [makeScalarConverter, scalarPB, hok, GoValue.Len, bytesType_kind]
          · simp [makeScalarConverter, scalarPB, prefInterface, GoValue.Convert, bytesType_kind,
              hok]
        · refine ⟨.bytesV (some (c :: rest)), ⟨ty, .stringV (c :: rest)⟩, ?_,
            by simp [prefInterface, scalarPB], ?_, rfl, rfl, Or.inl rfl⟩
          · simp [makeScalarConverter, scalarPB, hok, GoValue.Convert, bytesType_kind,
              GoValue.Len, prefValueOfScalar_bytes]
          · simp [makeScalarConverter, scalarPB, prefInterface, GoValue.Convert, bytesType_kind,
              hok]
    · cases p <;> simp only [wellTyped, hok] at hw
      case bytesV o =>
        rcases o with _ | s
        · refine ⟨.bytesV none, ⟨ty, .bytesV none⟩, ?_, by simp [prefInterface, scalarPB], ?_, rfl,
            rfl, Or.inl rfl⟩
          · simp [makeScalarConverter, scalarPB, hok, GoValue.Convert, bytesType_kind,
              prefValueOfScalar_bytes]
          · simp [makeScalarConverter, scalarPB, prefInterface, GoValue.Convert, bytesType_kind,
              hok]
        · refine ⟨.bytesV (some s), ⟨ty, .bytesV (some s)⟩, ?_, by simp [prefInterface, scalarPB],
            ?_, rfl, rfl, Or.inl rfl⟩
          · simp [makeScalarConverter, scalarPB, hok, GoValue.Convert, bytesType_kind,
              prefValueOfScalar_bytes]
          · simp [makeScalarConverter, scalarPB, prefInterface, GoValue.Convert, bytesType_kind,
              hok]

/-- Inversion of the factory on scalar kinds: success implies the native
type matched the row and the result is the scalar converter through that
kind's primitive protocol-facing type. -/
theorem build_scalar_inv (t : GoType) (k : Kind) (w : Option LegacyWrapper) (c : Converter)
    (hks : k.isScalar = true) (hb : NewLegacyConverter t k w = .ok c) :
    scalarNativeOK t k ∧ c = makeScalarConverter t (scalarPB k) := by
  cases k <;> simp only [Kind.isScalar] at hks <;> simp only [NewLegacyConverter] at hb <;>
    split at hb <;> simp_all [scalarNativeOK, scalarPB]

/-- C1: `NewLegacyConverter` returns a converter exactly when a row of the
classification table (`specAccepts`, written from the spec) accepts the
(native type, protocol kind, legacy wrapper) triple, and on every
non-matching pair it fails with the fatal `unsupported` fault carrying the
native type and the protocol kind — so failing twice with the same inputs
yields the same fault. -/
theorem build_matches_classification_table :
    ∀ (t : GoType) (k : Kind) (w : Option LegacyWrapper),
      ((∃ c, NewLegacyConverter t k w = .ok c) ↔ specAccepts t k w) ∧
      (¬ specAccepts t k w → NewLegacyConverter t k w = .error (.unsupported t k)) := by
  intro t k w
  cases k
  case bool => by_cases h : t.kind = GoKind.bool <;> simp [NewLegacyConverter, specAccepts, h]
  case int32 => by_cases h : t.kind = GoKind.int32 <;> simp [NewLegacyConverter, specAccepts, h]
  case sint32 => by_cases h : t.kind = GoKind.int32 <;> simp [NewLegacyConverter, specAccepts, h]
  case sfixed32 => by_cases h : t.kind = GoKind.int32 <;> simp [NewLegacyConverter, specAccepts, h]
  case int64 => by_cases h : t.kind = GoKind.int64 <;> simp [NewLegacyConverter, specAccepts, h]
  case sint64 => by_cases h : t.kind = GoKind.int64 <;> simp [NewLegacyConverter, specAccepts, h]
  case sfixed64 => by_cases h : t.kind = GoKind.int64 <;> simp [NewLegacyConverter, specAccepts, h]
  case uint32 => by_cases h : t.kind = GoKind.uint32 <;> simp [NewLegacyConverter, specAccepts, h]
  case fixed32 => by_cases h : t.kind = GoKind.uint32 <;> simp [NewLegacyConverter, specAccepts, h]
  case uint64 => by_cases h : t.kind = GoKind.uint64 <;> simp [NewLegacyConverter, specAccepts, h]
  case fixed64 => by_cases h : t.kind = GoKind.uint64 <;> simp [NewLegacyConverter, specAccepts, h]
  case float => by_cases h : t.kind = GoKind.float32 <;> simp [NewLegacyConverter, specAccepts, h]
  case double => by_cases h : t.kind = GoKind.float64 <;> simp [NewLegacyConverter, specAccepts, h]
  case string =>
    by_cases h : t.kind = GoKind.string ∨ (t.kind = GoKind.slice ∧ t.elemIsByte = true) <;>
      simp [NewLegacyConverter, specAccepts, h]
  case bytes =>
    by_cases h : t.kind = GoKind.string ∨ (t.kind = GoKind.slice ∧ t.elemIsByte = true) <;>
      simp [NewLegacyConverter, specAccepts, h]
  case enum =>
    by_cases h1 : t.kind ≠ GoKind.ptr ∧ t.implsEnumV2 = true
    · simp [NewLegacyConverter, specAccepts, h1]
    · cases w with
      | none => simp [NewLegacyConverter, specAccepts, h1]
      | some lw =>
          by_cases h2 : t.pkgPath ≠ "" ∧ t.kind = GoKind.int32 <;>
            simp [NewLegacyConverter, specAccepts, h1, h2] <;>
            (split <;> exact ⟨_, rfl⟩)
  case message =>
    by_cases h1 : t.kind = GoKind.ptr ∧ t.implsMessageV2 = true
    · simp [NewLegacyConverter, specAccepts, h1]
    · cases w with
      | none => simp [NewLegacyConverter, specAccepts, h1]
      | some lw =>
          by_cases h2 : t.kind = GoKind.ptr ∧ t.implsMessageV1 = true <;>
            simp [NewLegacyConverter, specAccepts, h1, h2] <;>
            (split <;> exact ⟨_, rfl⟩)
  case group =>
    by_cases h1 : t.kind = GoKind.ptr ∧ t.implsMessageV2 = true
    · simp [NewLegacyConverter, specAccepts, h1]
    · cases w with
      | none => simp [NewLegacyConverter, specAccepts, h1]
      | some lw =>
          by_cases h2 : t.kind = GoKind.ptr ∧ t.implsMessageV1 = true <;>
            simp [NewLegacyConverter, specAccepts, h1, h2] <;>
            (split <;> exact ⟨_, rfl⟩)

/-- Witness for C1 at a concrete unsupported pair: building for a struct
(non-matching) native type with kind Bool fails with the fault naming that
type and kind. -/
theorem build_matches_classification_table_witness :
    NewLegacyConverter ⟨.other, "T", "x", false, false, false, false⟩ .bool none =
      .error (.unsupported ⟨.other, "T", "x", false, false, false, false⟩ .bool) :=
  (build_matches_classification_table ⟨.other, "T", "x", false, false, false, false⟩ .bool
    none).2 (by decide)

/-- C5: every converter the factory returns has its enum type descriptor
set exactly for the Enum kind, its message type descriptor set exactly for
the Message/Group kinds, and neither set for scalar kinds. -/
theorem descriptor_fields_match_kind :
    ∀ (t : GoType) (k : Kind) (w : Option LegacyWrapper) (c : Converter),
      NewLegacyConverter t k w = .ok c →
      ((k = .enum → c.EnumType.isSome ∧ c.MessageType = none) ∧
       ((k = .message ∨ k = .group) → c.MessageType.isSome ∧ c.EnumType = none) ∧
       (k.isScalar = true → c.EnumType = none ∧ c.MessageType = none)) := by
  intro t k w c h
  cases k <;> simp only [NewLegacyConverter] at h <;> (repeat' split at h) <;>
    first
      | (injection h with h; subst h;
         simp [makeScalarConverter, currentEnumConverter, legacyEnumConverter,
           currentMessageConverter, legacyMessageConverter, Kind.isScalar])
      | exact Except.noConfusion h

/-- Witness for C5 at the concrete converter for kind Bool over native
bool. -/
theorem descriptor_fields_match_kind_witness :
    (makeScalarConverter boolType boolType).EnumType = none ∧
    (makeScalarConverter boolType boolType).MessageType = none :=
  (descriptor_fields_match_kind boolType .bool none (makeScalarConverter boolType boolType)
    rfl).2.2 rfl

/-- C2: every converter the factory can produce raises a mismatch fault —
carrying the observed and the expected type in its two fields — when its
native-to-protocol function receives a value of a different native type, or
when its protocol-to-native function receives an abstract value of a
different runtime kind. -/
theorem conversion_mismatch_faults :
    ∀ (t : GoType) (k : Kind) (w : Option LegacyWrapper) (c : Converter),
      NewLegacyConverter t k w = .ok c →
      ((∀ v : GoValue, v.type ≠ t → c.PBValueOf v = .error (.typeMismatch v.type t)) ∧
       (∀ pv : PBValue, pbRuntimeMismatch k pv → isMismatchFault (c.GoValueOf pv))) := by
  intro t k w c h
  cases k <;> simp only [NewLegacyConverter] at h <;> (repeat' split at h) <;>
    first
      | exact Except.noConfusion h
      | (injection h with h; subst h;
         refine ⟨fun v hv => by
           simp [makeScalarConverter, currentEnumConverter, legacyEnumConverter,
             currentMessageConverter, legacyMessageConverter, hv], fun pv hpv => ?_⟩;
         simp only [pbRuntimeMismatch, scalarPB] at hpv;
         first
           | (simp [makeScalarConverter, isMismatchFault, hpv]; done)
           | (cases pv <;>
               first
                 | exact absurd rfl (hpv _)
                 | (simp [currentEnumConverter, legacyEnumConverter, currentMessageConverter,
                      legacyMessageConverter, prefEnum, prefMessage, PrefMessage.ProtoUnwrap,
                      isMismatchFault]; done)))

/-- Witness for C2: the converter for a named int32 native type with kind
Int32 faults on a bare int64-typed native value, and on a string-kinded
abstract value. -/
theorem conversion_mismatch_faults_witness :
    (makeScalarConverter namedInt32 int32Type).PBValueOf ⟨int64Type, .intV 3⟩ =
      .error (.typeMismatch int64Type namedInt32) ∧
    isMismatchFault ((makeScalarConverter namedInt32 int32Type).GoValueOf (.stringV [])) := by
  have h := conversion_mismatch_faults namedInt32 .int32 none
    (makeScalarConverter namedInt32 int32Type) (by rfl)
  refine ⟨h.1 ⟨int64Type, .intV 3⟩ (by decide), h.2 (.stringV []) ?_⟩
  simp only [pbRuntimeMismatch, prefInterface, scalarPB]
  decide

/-- C4: for every scalar protocol kind, every accepted native shape and
every well-typed native value, converting to the protocol representation
and back returns a value of the original native type that is value-equal to
the input; the only departure from strict identity is the String/Bytes
empty case, where the result is the native type's zero value. -/
theorem scalar_roundtrip_identity :
    ∀ (t : GoType) (k : Kind) (w : Option LegacyWrapper) (c : Converter),
      k.isScalar = true → NewLegacyConverter t k w = .ok c →
      ∀ v : GoValue, v.type = t → wellTyped v →
        ∃ pv v2, c.PBValueOf v = .ok pv ∧ c.GoValueOf pv = .ok v2 ∧
          v2.type = t ∧ payloadValueEq v2.payload v.payload ∧
          (v2 = v ∨ (v.Len = 0 ∧ v2 = goZero t)) := by
  intro t k w c hks hb v hv hw
  obtain ⟨hok, rfl⟩ := build_scalar_inv t k w c hks hb
  obtain ⟨pv, v2, h1, _, h3, h4, h5, h6⟩ := makeScalar_roundtrip t k hks hok v hv hw
  exact ⟨pv, v2, h1, h3, h4, h5, h6⟩

/-- Witness for C4 at kind Int32 over the primitive int32 native type and
the value 5. -/
theorem scalar_roundtrip_identity_witness :
    ∃ pv v2,
      (makeScalarConverter int32Type int32Type).PBValueOf ⟨int32Type, .intV 5⟩ = .ok pv ∧
      (makeScalarConverter int32Type int32Type).GoValueOf pv = .ok v2 ∧
      v2.type = int32Type ∧
      payloadValueEq v2.payload (GoValue.mk int32Type (.intV 5)).payload ∧
      (v2 = ⟨int32Type, .intV 5⟩ ∨
        (GoValue.Len ⟨int32Type, .intV 5⟩ = 0 ∧ v2 = goZero int32Type)) :=
  scalar_roundtrip_identity int32Type .int32 none (makeScalarConverter int32Type int32Type)
    rfl rfl ⟨int32Type, .intV 5⟩ rfl (by decide)

/-- C10: for every scalar protocol kind the factory accepts any defined
(named) native type whose underlying primitive kind matches the row; the
resulting converter maps well-typed values of that type to the canonical
primitive protocol representation and back to a value of the named native
type, and faults with the exact-type mismatch error on values of any other
native type, the bare primitive included. -/
theorem named_scalar_types_accepted :
    ∀ (t : GoType) (k : Kind) (w : Option LegacyWrapper),
      k.isScalar = true → scalarNativeOK t k →
      ∃ c, NewLegacyConverter t k w = .ok c ∧
        (∀ v : GoValue, v.type = t → wellTyped v →
          ∃ pv, c.PBValueOf v = .ok pv ∧ (prefInterface pv).type = scalarPB k ∧
            ∃ v2, c.GoValueOf pv = .ok v2 ∧ v2.type = t) ∧
        (∀ v : GoValue, v.type ≠ t → c.PBValueOf v = .error (.typeMismatch v.type t)) := by
  intro t k w hks hok
  refine ⟨makeScalarConverter t (scalarPB k), ?_, ?_, ?_⟩
  · cases k <;> simp only [Kind.isScalar] at hks <;> simp only [scalarNativeOK] at hok <;>
      simp [NewLegacyConverter, scalarPB, hok]
  · intro v hv hw
    obtain ⟨pv, v2, h1, h2, h3, h4, _, _⟩ := makeScalar_roundtrip t k hks hok v hv hw
    exact ⟨pv, h1, h2, v2, h3, h4⟩
  · intro v hv
    simp [makeScalarConverter, hv]

/-- Witness for C10 at a named 32-bit integer type with kind Int32. -/
theorem named_scalar_types_accepted_witness :
    ∃ c, NewLegacyConverter namedInt32 .int32 none = .ok c ∧
      (∀ v : GoValue, v.type = namedInt32 → wellTyped v →
        ∃ pv, c.PBValueOf v = .ok pv ∧ (prefInterface pv).type = scalarPB .int32 ∧
          ∃ v2, c.GoValueOf pv = .ok v2 ∧ v2.type = namedInt32) ∧
      (∀ v : GoValue, v.type ≠ namedInt32 →
        c.PBValueOf v = .error (.typeMismatch v.type namedInt32)) :=
  named_scalar_types_accepted namedInt32 .int32 none rfl (by decide)

/-- C3: the empty-value normalization of the scalar converter: a Bytes-kind
converter over a native text string maps the empty string to the nil
(representation-less) byte sequence; a String-kind converter over a native
byte slice maps the empty protocol value back to the native type's zero
value, the nil slice; and for native byte slice with kind String an empty
allocated input round-trips to the nil slice. -/
theorem empty_value_normalization :
    (∀ (t : GoType) (w : Option LegacyWrapper) (c : Converter), t.kind = .string →
      NewLegacyConverter t .bytes w = .ok c →
      c.PBValueOf ⟨t, .stringV []⟩ = .ok (.bytesV none)) ∧
    (∀ (t : GoType) (w : Option LegacyWrapper) (c : Converter), t.kind = .slice →
      NewLegacyConverter t .string w = .ok c →
      c.GoValueOf (.stringV []) = .ok (goZero t) ∧ goZero t = ⟨t, .bytesV none⟩) ∧
    (∀ (w : Option LegacyWrapper) (c : Converter),
      NewLegacyConverter bytesType .string w = .ok c →
      ∃ pv, c.PBValueOf ⟨bytesType, .bytesV (some [])⟩ = .ok pv ∧
        c.GoValueOf pv = .ok ⟨bytesType, .bytesV none⟩) := by
  refine ⟨?_, ?_, ?_⟩
  · intro t w c ht hb
    obtain ⟨hok, rfl⟩ := build_scalar_inv t .bytes w c rfl hb
    simp [makeScalarConverter, scalarPB, ht, GoValue.Len, bytesType_kind]
  · intro t w c ht hb
    obtain ⟨hok, rfl⟩ := build_scalar_inv t .string w c rfl hb
    constructor
    · simp [makeScalarConverter, scalarPB, prefInterface, GoValue.Len, stringType_kind, ht]
    · simp [goZero, ht]
  · intro w c hb
    obtain ⟨hok, rfl⟩ := build_scalar_inv bytesType .string w c rfl hb
    refine ⟨.stringV [], ?_, ?_⟩
    · simp [makeScalarConverter, scalarPB, GoValue.Convert, bytesType_kind, stringType_kind,
        prefValueOfScalar_string]
    · simp [makeScalarConverter, scalarPB, prefInterface, GoValue.Len, stringType_kind,
        bytesType_kind, goZero]

/-- Witness for C3: the concrete scenario of native byte slice with kind
String on an empty allocated slice. -/
theorem empty_value_normalization_witness :
    ∃ pv, (makeScalarConverter bytesType stringType).PBValueOf ⟨bytesType, .bytesV (some [])⟩ =
        .ok pv ∧
      (makeScalarConverter bytesType stringType).GoValueOf pv = .ok ⟨bytesType, .bytesV none⟩ :=
  empty_value_normalization.2.2 none (makeScalarConverter bytesType stringType) rfl

/-- C6: the current (v2) message converter boxes and unboxes the native
pointer with no copy: converting out and back returns the very same native
pointer value. -/
theorem current_message_roundtrip_identity :
    ∀ (t : GoType) (k : Kind) (w : Option LegacyWrapper), (k = .message ∨ k = .group) →
      t.kind = .ptr → t.implsMessageV2 = true →
      ∃ c, NewLegacyConverter t k w = .ok c ∧
        ∀ v : GoValue, v.type = t →
          ∃ pv, c.PBValueOf v = .ok pv ∧ c.GoValueOf pv = .ok v := by
  intro t k w hk hp h2
  have hb : NewLegacyConverter t k w = .ok (currentMessageConverter t) := by
    rcases hk with rfl | rfl <;> simp [NewLegacyConverter, hp, h2]
  refine ⟨currentMessageConverter t, hb, fun v hv => ⟨.messageV (.current v), ?_, ?_⟩⟩
  · simp [currentMessageConverter, hv]
  · simp [currentMessageConverter, prefMessage, PrefMessage.Interface, hv]

/-- Witness for C6 at a concrete v2 message pointer type and address 42. -/
theorem current_message_roundtrip_identity_witness :
    ∃ c, NewLegacyConverter msgV2GoType .message none = .ok c ∧
      ∀ v : GoValue, v.type = msgV2GoType →
        ∃ pv, c.PBValueOf v = .ok pv ∧ c.GoValueOf pv = .ok v :=
  current_message_roundtrip_identity msgV2GoType .message none (Or.inl rfl) rfl rfl

/-- C7: the legacy message converter wraps the native value through the
legacy wrapper on the way out, and unwraps the wrapped result back to the
original native value on the way in (unwrap-after-wrap identity), the
wrapper's unwrap capability returning the value it wrapped. -/
theorem legacy_message_roundtrip_identity :
    ∀ (t : GoType) (k : Kind) (lw : LegacyWrapper), (k = .message ∨ k = .group) →
      t.kind = .ptr → t.implsMessageV1 = true → t.implsMessageV2 = false →
      ∃ c, NewLegacyConverter t k (some lw) = .ok c ∧ c.IsLegacy = true ∧
        ∀ v : GoValue, v.type = t →
          c.PBValueOf v = .ok (.messageV (lw.MessageOf v)) ∧
          c.GoValueOf (.messageV (lw.MessageOf v)) = .ok v := by
  intro t k lw hk hp h1 h2
  have hb : NewLegacyConverter t k (some lw) = .ok (legacyMessageConverter t lw) := by
    rcases hk with rfl | rfl <;> simp [NewLegacyConverter, hp, h1, h2]
  refine ⟨legacyMessageConverter t lw, hb, rfl, fun v hv => ⟨?_, ?_⟩⟩
  · simp [legacyMessageConverter, hv]
  · simp [legacyMessageConverter, prefMessage, LegacyWrapper.MessageOf,
      PrefMessage.ProtoUnwrap, hv]

/-- Witness for C7 at a concrete legacy message pointer type. -/
theorem legacy_message_roundtrip_identity_witness :
    ∃ c, NewLegacyConverter msgV1GoType .message (some theWrapper) = .ok c ∧ c.IsLegacy = true ∧
      ∀ v : GoValue, v.type = msgV1GoType →
        c.PBValueOf v = .ok (.messageV (theWrapper.MessageOf v)) ∧
        c.GoValueOf (.messageV (theWrapper.MessageOf v)) = .ok v :=
  legacy_message_roundtrip_identity msgV1GoType .message theWrapper (Or.inl rfl) rfl rfl rfl

/-- C8: the current (v2) enum converter maps a self-describing enum value
to the abstract numeric value the value itself reports, and maps that same
number back to a native value of the enum type reporting the identical
number. -/
theorem current_enum_number_roundtrip :
    ∀ (t : GoType) (w : Option LegacyWrapper), t.kind ≠ .ptr → t.implsEnumV2 = true →
      ∃ c, NewLegacyConverter t .enum w = .ok c ∧
        ∀ n : Int,
          c.PBValueOf ⟨t, .intV n⟩ = .ok (.enumV (protoEnumNumber ⟨t, .intV n⟩)) ∧
          c.GoValueOf (.enumV n) = .ok ⟨t, .intV n⟩ ∧
          protoEnumNumber ⟨t, .intV n⟩ = n := by
  intro t w hp h2
  have hb : NewLegacyConverter t .enum w = .ok (currentEnumConverter t) := by
    simp [NewLegacyConverter, hp, h2]
  refine ⟨currentEnumConverter t, hb, fun n => ⟨?_, ?_, rfl⟩⟩
  · simp [currentEnumConverter]
  · simp [currentEnumConverter, prefEnum, PrefEnumType.New, protoReflectEnumType]

/-- Witness for C8 at a concrete self-describing enum type and number 3. -/
theorem current_enum_number_roundtrip_witness :
    ∃ c, NewLegacyConverter enumV2GoType .enum none = .ok c ∧
      ∀ n : Int,
        c.PBValueOf ⟨enumV2GoType, .intV n⟩ =
          .ok (.enumV (protoEnumNumber ⟨enumV2GoType, .intV n⟩)) ∧
        c.GoValueOf (.enumV n) = .ok ⟨enumV2GoType, .intV n⟩ ∧
        protoEnumNumber ⟨enumV2GoType, .intV n⟩ = n :=
  current_enum_number_roundtrip enumV2GoType none (by decide) rfl

/-- C9: the legacy enum converter — reached when the native type is a named
32-bit integer without the self-description capability and a legacy wrapper
is supplied — maps a native value to the abstract enum number equal to its
integer value, and the converter carries the legacy flag. -/
theorem legacy_enum_number_and_flag :
    ∀ (t : GoType) (lw : LegacyWrapper), t.implsEnumV2 = false → t.pkgPath ≠ "" →
      t.kind = .int32 →
      ∃ c, NewLegacyConverter t .enum (some lw) = .ok c ∧ c.IsLegacy = true ∧
        ∀ n : Int,
          c.PBValueOf ⟨t, .intV n⟩ = .ok (.enumV (GoValue.Int ⟨t, .intV n⟩)) ∧
          GoValue.Int ⟨t, .intV n⟩ = n := by
  intro t lw h2 hpkg hkind
  have hb : NewLegacyConverter t .enum (some lw) = .ok (legacyEnumConverter t lw) := by
    simp [NewLegacyConverter, h2, hpkg, hkind]
  refine ⟨legacyEnumConverter t lw, hb, rfl, fun n => ⟨?_, rfl⟩⟩
  simp [legacyEnumConverter]

/-- Witness for C9 at a concrete named int32 type. -/
theorem legacy_enum_number_and_flag_witness :
    ∃ c, NewLegacyConverter namedInt32 .enum (some theWrapper) = .ok c ∧ c.IsLegacy = true ∧
      ∀ n : Int,
        c.PBValueOf ⟨namedInt32, .intV n⟩ = .ok (.enumV (GoValue.Int ⟨namedInt32, .intV n⟩)) ∧
        GoValue.Int ⟨namedInt32, .intV n⟩ = n :=
  legacy_enum_number_and_flag namedInt32 theWrapper rfl (by decide) rfl
